import Mathlib

/-!
Verification of the request-configuration pipeline of protoc-gen-doc
(src/plugin.go): option parsing (ParseOptions), exclusion filtering
(excludeUnwantedProtos), directory grouping (groupProtosByDirectory) and
response assembly (Generate).

Strings are embedded as lists of characters; the Go standard-library
string functions used by the code (strings.Split, strings.Contains,
strings.HasPrefix, path.Base, filepath.Split, filepath.Join) are embedded
below with the same semantics on that representation.  External
collaborators (the regexp compiler/matcher, the filesystem read of a
template, and the template renderer) are passed in as function parameters.
-/

deriving instance DecidableEq for Except

/-- Go strings, embedded as lists of characters. -/
abbrev Str := List Char

/-- Embeds strings.Contains(s, c) for a one-character needle. -/
def goContains (s : Str) (c : Char) : Bool :=
  s.any (fun a => a = c)

/-- Embeds strings.Split(s, sep) for a one-character separator: splits
around every occurrence of the separator; the result always has one more
element than the number of separators, and is never empty. -/
def goSplit : Str → Char → List Str
  | [], _ => [[]]
  | c :: rest, sep =>
    if c = sep then
      [] :: goSplit rest sep
    else
      match goSplit rest sep with
      | [] => [[c]]
      | h :: t => (c :: h) :: t

/-- Embeds strings.HasPrefix(s, p) for a one-character p. -/
def goStartsWith (s : Str) (c : Char) : Bool :=
  match s with
  | [] => false
  | a :: _ => a = c

/-- Embeds the character class of the Go regular expression in
winPathHeuristic, written [a-zA-z] in plugin.go line 136.  The union of
the ranges a-z and A-z is the single ASCII range from uppercase A to
lowercase z, which also contains the six non-letter characters between
uppercase Z and lowercase a (bracket, backslash, caret, underscore,
backquote and the closing bracket). -/
def driveLetterChar (c : Char) : Bool :=
  'A' ≤ c && c ≤ 'z'

/-- Embeds regexp.MatchString of the unanchored pattern used at
plugin.go line 136: the string matches iff its last character is in the
[a-zA-z] class and is either the whole string or preceded by a comma. -/
def driveMatch (first : Str) : Bool :=
  match first.reverse with
  | [] => false
  | [c] => driveLetterChar c
  | c :: d :: _ => driveLetterChar c && d = ','

/-- Embeds winPathHeuristic (plugin.go lines 130-140): the colon between
first and second is treated as part of a Windows path when second starts
with a backslash and first ends in a drive-letter-class character that is
at the start of the string or preceded by a comma. -/
def winPathHeuristic (first second : Str) : Bool :=
  goStartsWith second '\\' && driveMatch first

/-- Embeds path.Base (used at plugin.go line 183): empty string gives
".", trailing slashes are removed, then everything up to the final slash
is dropped; a string of only slashes gives "/". -/
def goPathBase (s : Str) : Str :=
  if s = [] then ['.']
  else
    let trimmed := (s.reverse.dropWhile (fun c => c = '/')).reverse
    if trimmed = [] then ['/']
    else (trimmed.reverse.takeWhile (fun c => ¬ c = '/')).reverse

/-- Embeds the directory half of filepath.Split (plugin.go line 80) on a
slash-separated OS: everything up to and including the final slash, or
the empty string when there is no slash. -/
def goFilepathSplitDir (s : Str) : Str :=
  (s.reverse.dropWhile (fun c => ¬ c = '/')).reverse

/-- Embeds filepath.Join(dir, file) (plugin.go line 64) for the directory
keys produced by groupProtosByDirectory, which are either the sentinel
"./" or a path ending in a slash: Join cleans "./" away and otherwise the
concatenation is already clean. -/
def goFilepathJoin (dir file : Str) : Str :=
  if dir = "./".toList then file else dir ++ file

/-- Renderer kinds. Modelled from the spec: the RenderType enumeration
and the set of built-in renderer names are not part of src/plugin.go; the
spec describes an enumerated value selecting a built-in renderer. -/
inductive RenderType
  | docbook
  | html
  | json
  | markdown
deriving DecidableEq, Repr

/-- Modelled from the spec: NewRenderType, the recognizer of built-in
renderer names, is not part of src/plugin.go.  Per the spec, the first
main-spec field "is reinterpreted as a renderer selection" exactly when
it "matches the name of a recognized built-in renderer"; the recognized
names are taken to be the four built-in renderers. -/
def NewRenderType (s : Str) : Option RenderType :=
  if s = "docbook".toList then some RenderType.docbook
  else if s = "html".toList then some RenderType.html
  else if s = "json".toList then some RenderType.json
  else if s = "markdown".toList then some RenderType.markdown
  else none

/-- Embeds PluginOptions (plugin.go lines 18-24).  Compiled exclusion
patterns are represented by their source text; the external regexp
matcher is supplied separately where matching happens. -/
structure PluginOptions where
  type : RenderType
  TemplateFile : Str
  OutputFile : Str
  ExcludePatterns : List Str
  SourceRelative : Bool
deriving DecidableEq, Repr

/-- The initial options value of ParseOptions (plugin.go lines 113-118). -/
def defaultOptions : PluginOptions :=
  { type := RenderType.html
    TemplateFile := []
    OutputFile := "index.html".toList
    ExcludePatterns := []
    SourceRelative := false }

/-- Errors returned by ParseOptions.  invalidParameter embeds the
fmt.Errorf("Invalid parameter: %s", params) values; regexError embeds the
error returned by regexp.Compile, which identifies the offending pattern
in its message. -/
inductive ParseError
  | invalidParameter (raw : Str)
  | regexError (pattern : Str)
deriving DecidableEq, Repr

/-- Embeds the pattern-compilation loop of ParseOptions (plugin.go lines
160-166): each pattern is compiled in order and the first compile failure
is returned as the error. -/
def compilePatterns (compileOk : Str → Bool) : List Str → Except ParseError (List Str)
  | [] => Except.ok []
  | p :: rest =>
    if compileOk p then
      match compilePatterns compileOk rest with
      | Except.error e => Except.error e
      | Except.ok l => Except.ok (p :: l)
    else Except.error (ParseError.regexError p)

/-- Embeds the colon-disambiguation step of ParseOptions (plugin.go lines
123-157), entered when the parameter contains a colon: returns the
re-assembled main parameter string and the exclusion part. -/
def splitColon (params : Str) : Str × Str :=
  let parts := goSplit params ':'
  let p0 := parts.getD 0 []
  let p1 := parts.getD 1 []
  if winPathHeuristic p0 p1 then
    let acc := p0 ++ ':' :: p1
    if 2 < parts.length then
      if winPathHeuristic acc (parts.getD 2 []) then
        (acc ++ ':' :: parts.getD 2 [], if 3 < parts.length then parts.getD 3 [] else [])
      else (acc, parts.getD 2 [])
    else (acc, [])
  else (p0, p1)

/-- Embeds the main-spec half of ParseOptions (plugin.go lines 169-202),
run on the parameter string after any exclusion part was removed:
validates the comma-separated field shape, fills in template file, output
file basename and the source-relative flag, then reinterprets the
template-file field as a built-in renderer when it is recognized. -/
def parseMainSpec (options : PluginOptions) (params : Str) : Except ParseError PluginOptions :=
  if params = [] then Except.ok options
  else if goContains params ',' = false then Except.error (ParseError.invalidParameter params)
  else
    let parts := goSplit params ','
    if parts.length < 2 ∨ 3 < parts.length then Except.error (ParseError.invalidParameter params)
    else if 2 < parts.length ∧ ¬ parts.getD 2 [] = "source_relative".toList
            ∧ ¬ parts.getD 2 [] = "default".toList then
      Except.error (ParseError.invalidParameter params)
    else
      let tf := parts.getD 0 []
      let opts2 : PluginOptions :=
        { options with
            TemplateFile := tf
            OutputFile := goPathBase (parts.getD 1 [])
            SourceRelative :=
              decide (2 < parts.length) && decide (parts.getD 2 [] = "source_relative".toList) }
      match NewRenderType tf with
      | some t => Except.ok { opts2 with type := t, TemplateFile := [] }
      | none => Except.ok opts2

/-- Embeds ParseOptions (plugin.go lines 112-203).  compileOk is the
external regexp compiler: it reports whether a pattern text compiles. -/
def ParseOptions (compileOk : Str → Bool) (rawParams : Str) : Except ParseError PluginOptions :=
  if goContains rawParams ':' then
    let mainAndExclude := splitColon rawParams
    let excludePart := mainAndExclude.2
    match (if excludePart = [] then Except.ok []
           else compilePatterns compileOk (goSplit excludePart ',')) with
    | Except.error e => Except.error e
    | Except.ok pats =>
      parseMainSpec { defaultOptions with ExcludePatterns := pats } mainAndExclude.1
  else parseMainSpec defaultOptions rawParams

/-- Embeds protokit.FileDescriptor as far as the pipeline reads it: only
its declared name (GetName) is used. -/
structure FileDescriptor where
  name : Str
deriving DecidableEq, Repr

/-- Embeds excludeUnwantedProtos (plugin.go lines 90-105).  rmatch is the
external regexp matcher: rmatch p s holds when pattern p matches string
s.  A descriptor is skipped (continue OUTER) as soon as one pattern
matches its name; otherwise it is appended to the output. -/
def excludeUnwantedProtos (rmatch : Str → Str → Bool)
    (fds : List FileDescriptor) (excludePatterns : List Str) : List FileDescriptor :=
  match fds with
  | [] => []
  | d :: rest =>
    if excludePatterns.any (fun p => rmatch p d.name) then
      excludeUnwantedProtos rmatch rest excludePatterns
    else d :: excludeUnwantedProtos rmatch rest excludePatterns

/-- The per-descriptor directory key of groupProtosByDirectory (plugin.go
lines 77-84): the filepath.Split directory of the name when
sourceRelative is set, otherwise empty; an empty directory falls back to
the sentinel "./". -/
def protoDir (sourceRelative : Bool) (fd : FileDescriptor) : Str :=
  let dir := if sourceRelative then goFilepathSplitDir fd.name else []
  if dir = [] then "./".toList else dir

/-- One insertion step of the Go map update fdsGroup[dir] = append(...):
appends the descriptor to the entry with this key, or creates the entry
when the key is new. -/
def insertAppend (m : List (Str × List FileDescriptor)) (k : Str) (fd : FileDescriptor) :
    List (Str × List FileDescriptor) :=
  match m with
  | [] => [(k, [fd])]
  | (k2, l) :: rest =>
    if k2 = k then (k2, l ++ [fd]) :: rest else (k2, l) :: insertAppend rest k fd

/-- Embeds groupProtosByDirectory (plugin.go lines 74-88).  The Go map is
embedded as an association list with one entry per distinct key; Go map
iteration order is unspecified, so consumers take the enumeration order
as a separate parameter constrained to a permutation of these keys. -/
def groupProtosByDirectory (fds : List FileDescriptor) (sourceRelative : Bool) :
    List (Str × List FileDescriptor) :=
  List.foldl (fun m fd => insertAppend m (protoDir sourceRelative fd) fd) [] fds

/-- Embeds the supported-features flag (plugin.go line 27):
CodeGeneratorResponse_FEATURE_PROTO3_OPTIONAL = 1. -/
def SupportedFeatures : Nat := 1

/-- One entry of the CodeGeneratorResponse (plugin.go lines 63-66). -/
structure RespFile where
  name : Str
  content : Str
deriving DecidableEq, Repr

/-- Embeds the CodeGeneratorResponse as far as Generate fills it. -/
structure CodeGeneratorResponse where
  file : List RespFile
  supportedFeatures : Option Nat
deriving DecidableEq, Repr

/-- Embeds the CodeGeneratorRequest as far as the pipeline reads it: the
parameter string and the descriptors (protokit.ParseCodeGenRequest's
output is modelled as the request's descriptor list). -/
structure CodeGeneratorRequest where
  parameter : Str
  fds : List FileDescriptor
deriving DecidableEq, Repr

/-- Errors returned by Generate: a ParseOptions error, an error from the
external template-file read, or an error from the external render call.
The render constructor carries exactly the renderer's own error value,
as the code returns it unchanged (plugin.go line 60). -/
inductive GenError
  | parse (e : ParseError)
  | io (e : Str)
  | render (e : Str)
deriving DecidableEq, Repr

/-- Embeds the render loop of Generate (plugin.go lines 55-67) over a
given enumeration order of the group keys: for each key, render the
group (render models RenderTemplate composed with NewTemplate) and on
success append a response file at Join(dir, outputFile); the first render
error aborts the loop. -/
def assembleFiles (render : RenderType → List FileDescriptor → Str → Except Str Str)
    (ty : RenderType) (customTemplate : Str) (outputFile : Str)
    (grp : List (Str × List FileDescriptor)) : List Str → Except Str (List RespFile)
  | [] => Except.ok []
  | dir :: rest =>
    match render ty ((grp.lookup dir).getD []) customTemplate with
    | Except.error e => Except.error e
    | Except.ok output =>
      match assembleFiles render ty customTemplate outputFile grp rest with
      | Except.error e => Except.error e
      | Except.ok files => Except.ok (⟨goFilepathJoin dir outputFile, output⟩ :: files)

/-- Embeds Generate (plugin.go lines 34-72).  compileOk and rmatch are
the external regexp compiler and matcher, readFile the external
filesystem read of a user template, render the external renderer.  order
is the enumeration order of the Go map built by groupProtosByDirectory;
Go leaves that order unspecified, so Generate is parameterized by it and
theorems constrain it to a permutation of the group keys. -/
def Generate (compileOk : Str → Bool) (rmatch : Str → Str → Bool)
    (readFile : Str → Except Str Str)
    (render : RenderType → List FileDescriptor → Str → Except Str Str)
    (order : List Str) (req : CodeGeneratorRequest) :
    Except GenError CodeGeneratorResponse :=
  match ParseOptions compileOk req.parameter with
  | Except.error e => Except.error (GenError.parse e)
  | Except.ok options =>
    let result := excludeUnwantedProtos rmatch req.fds options.ExcludePatterns
    match (if options.TemplateFile = [] then Except.ok []
           else readFile options.TemplateFile) with
    | Except.error e => Except.error (GenError.io e)
    | Except.ok customTemplate =>
      let grp := groupProtosByDirectory result options.SourceRelative
      match assembleFiles render options.type customTemplate options.OutputFile grp order with
      | Except.error e => Except.error (GenError.render e)
      | Except.ok files =>
        Except.ok { file := files, supportedFeatures := some SupportedFeatures }

/-- The group keys of a request after parsing and filtering, in first-
occurrence order; a run of Generate enumerates the Go map in some
permutation of these keys. -/
def groupKeysOf (compileOk : Str → Bool) (rmatch : Str → Str → Bool)
    (req : CodeGeneratorRequest) : List Str :=
  match ParseOptions compileOk req.parameter with
  | Except.error _ => []
  | Except.ok options =>
    (groupProtosByDirectory
      (excludeUnwantedProtos rmatch req.fds options.ExcludePatterns)
      options.SourceRelative).map Prod.fst

/-! Helper lemmas about the embedded Go string functions. -/

theorem goContains_cons (a : Char) (s : Str) (c : Char) :
    goContains (a :: s) c = (decide (a = c) || goContains s c) := rfl

theorem goSplit_not_contains (s : Str) (sep : Char) (h : goContains s sep = false) :
    goSplit s sep = [s] := by
  induction s with
  | nil => rfl
  | cons a rest ih =>
    rw [goContains_cons, Bool.or_eq_false_iff] at h
    obtain ⟨h1, h2⟩ := h
    have ha : ¬ a = sep := by simpa using h1
    simp [goSplit, ha, ih h2]

theorem goSplit_append_cons (a b : Str) (sep : Char) (h : goContains a sep = false) :
    goSplit (a ++ sep :: b) sep = a :: goSplit b sep := by
  induction a with
  | nil => simp [goSplit]
  | cons x rest ih =>
    rw [goContains_cons, Bool.or_eq_false_iff] at h
    obtain ⟨h1, h2⟩ := h
    have hx : ¬ x = sep := by simpa using h1
    simp [goSplit, hx, ih h2]

theorem goContains_append_cons (a b : Str) (c : Char) :
    goContains (a ++ c :: b) c = true := by
  simp [goContains]

theorem goSplit_ne_nil (s : Str) (sep : Char) : ¬ goSplit s sep = [] := by
  cases s with
  | nil => simp [goSplit]
  | cons a rest =>
    simp only [goSplit]
    by_cases ha : a = sep
    · simp [ha]
    · simp only [if_neg ha]
      cases hg : goSplit rest sep <;> simp

theorem goContains_of_split_length (s : Str) (sep : Char) (h : goContains s sep = true) :
    2 ≤ (goSplit s sep).length := by
  induction s with
  | nil => simp [goContains] at h
  | cons a rest ih =>
    rw [goContains_cons] at h
    by_cases ha : a = sep
    · simp only [goSplit, if_pos ha, List.length_cons]
      cases hg : goSplit rest sep with
      | nil => exact absurd hg (goSplit_ne_nil rest sep)
      | cons x t => simp [hg]
    · have h2 : goContains rest sep = true := by
        simpa [ha] using h
      have h3 := ih h2
      cases hg : goSplit rest sep with
      | nil => exact absurd hg (goSplit_ne_nil rest sep)
      | cons x t =>
        rw [hg, List.length_cons] at h3
        simp only [goSplit, if_neg ha, hg, List.length_cons]
        omega

/-! Sample instances of the external collaborators, used to instantiate
theorems at concrete inputs. -/

/-- Sample regexp-compile oracle: every pattern text compiles. -/
def alwaysCompiles : Str → Bool := fun _ => true

/-- Sample regexp-compile oracle: rejects exactly the pattern "(",
which Go's regexp.Compile rejects with a missing-closing-paren error. -/
def rejectOpenParen : Str → Bool := fun s => ¬ s = "(".toList

/-- Sample regexp matcher: no pattern matches any name. -/
def neverMatches : Str → Str → Bool := fun _ _ => false

/-- Sample filesystem: every read fails (never reached in the concrete
runs below, which use no template file). -/
def noRead : Str → Except Str Str := fun _ => Except.error "unused".toList

/-- Sample renderer: always succeeds with the same output bytes. -/
def constRender : RenderType → List FileDescriptor → Str → Except Str Str :=
  fun _ _ _ => Except.ok "out".toList

/-- Sample renderer: always fails with the same underlying error. -/
def failRender : RenderType → List FileDescriptor → Str → Except Str Str :=
  fun _ _ _ => Except.error "boom".toList

/-- C5: for the empty parameter string, ParseOptions succeeds and returns
exactly the fixed default configuration: built-in default HTML renderer,
no template file, output file name "index.html", single-output grouping
(SourceRelative false), and an empty exclusion-pattern list. -/
theorem parseOptions_empty_default (compileOk : Str → Bool) :
    ParseOptions compileOk [] =
      Except.ok
        { type := RenderType.html
          TemplateFile := []
          OutputFile := "index.html".toList
          ExcludePatterns := []
          SourceRelative := false } := rfl

/-- C8: the exclusion filter equals the order-preserving filter that
drops a descriptor exactly when some pattern matches its name (tested by
logical OR over the pattern list); with an empty pattern list it is the
identity; and its output is always a sublist (order-preserving
subsequence) of its input.  It is a total function, so no error arises. -/
theorem excludeUnwantedProtos_characterization (rmatch : Str → Str → Bool)
    (fds : List FileDescriptor) (excludePatterns : List Str) :
    excludeUnwantedProtos rmatch fds excludePatterns
        = fds.filter (fun d => ! excludePatterns.any (fun p => rmatch p d.name)) ∧
    excludeUnwantedProtos rmatch fds [] = fds ∧
    (excludeUnwantedProtos rmatch fds excludePatterns).Sublist fds := by
  have hfilter : ∀ pats : List Str, excludeUnwantedProtos rmatch fds pats
      = fds.filter (fun d => ! pats.any (fun p => rmatch p d.name)) := by
    intro pats
    induction fds with
    | nil => rfl
    | cons d rest ih =>
      by_cases hd : pats.any (fun p => rmatch p d.name) = true
      · simp [excludeUnwantedProtos, hd, List.filter, ih]
      · simp only [Bool.not_eq_true] at hd
        simp [excludeUnwantedProtos, hd, List.filter, ih]
  refine ⟨hfilter excludePatterns, ?_, ?_⟩
  · rw [hfilter []]
    simp
  · rw [hfilter excludePatterns]
    exact List.filter_sublist fds

/-- C10: appending a trailing separator colon with nothing after it to a
main spec does not change the parse: the empty exclusion part yields no
compiled patterns and no error, and the parameter ":" parses to the
default configuration with no exclusions. -/
theorem parseOptions_trailing_colon (compileOk : Str → Bool) (s : Str)
    (h : goContains s ':' = false) :
    ParseOptions compileOk (s ++ [':']) = ParseOptions compileOk s ∧
    ParseOptions compileOk [':'] = Except.ok defaultOptions := by
  refine ⟨?_, rfl⟩
  have hsplit : goSplit (s ++ [':']) ':' = [s, []] := by
    have h2 := goSplit_append_cons s [] ':' h
    simpa [goSplit] using h2
  have hcont : goContains (s ++ [':']) ':' = true := goContains_append_cons s [] ':'
  have hsc : splitColon (s ++ [':']) = (s, []) := by
    simp [splitColon, hsplit, winPathHeuristic, goStartsWith]
  have hdef : ({ defaultOptions with ExcludePatterns := ([] : List Str) } : PluginOptions)
      = defaultOptions := rfl
  simp only [ParseOptions, hcont, hsc, h, if_true, if_false, Bool.false_eq_true, ite_true,
    ite_false, hdef]

/-- Witness for C10 at the concrete parameter "a,b:". -/
theorem parseOptions_trailing_colon_witness :
    ParseOptions alwaysCompiles ("a,b".toList ++ [':']) = ParseOptions alwaysCompiles "a,b".toList ∧
    ParseOptions alwaysCompiles [':'] = Except.ok defaultOptions :=
  parseOptions_trailing_colon alwaysCompiles "a,b".toList (by decide)

/-! Lemmas about the association-list embedding of the grouping map. -/

theorem lookup_insertAppend (m : List (Str × List FileDescriptor)) (k kq : Str)
    (fd : FileDescriptor) :
    (insertAppend m k fd).lookup kq =
      if kq = k then some (((m.lookup kq).getD []) ++ [fd]) else m.lookup kq := by
  induction m with
  | nil =>
    by_cases h : kq = k
    · simp [insertAppend, List.lookup, h]
    · have hb : (kq == k) = false := by simpa using h
      simp [insertAppend, List.lookup, h, hb]
  | cons hd t ih =>
    obtain ⟨k2, l⟩ := hd
    by_cases h2 : k2 = k
    · subst h2
      by_cases h : kq = k2
      · subst h
        simp [insertAppend, List.lookup]
      · have hb : (kq == k2) = false := by simpa using h
        simp [insertAppend, List.lookup, h, hb]
    · by_cases h : kq = k2
      · have hkqk : ¬ kq = k := fun hh => h2 (h ▸ hh)
        have hb : (kq == k2) = true := by simpa using h
        simp [insertAppend, h2, List.lookup, hb, hkqk]
      · have hb : (kq == k2) = false := by simpa using h
        simp [insertAppend, h2, List.lookup, hb, ih]

theorem lookup_foldl_insertAppend (sr : Bool) (fds : List FileDescriptor)
    (m : List (Str × List FileDescriptor)) (k : Str) :
    (List.foldl (fun m2 fd => insertAppend m2 (protoDir sr fd) fd) m fds).lookup k =
      (match m.lookup k with
       | some l => some (l ++ fds.filter (fun fd => protoDir sr fd = k))
       | none =>
         if fds.filter (fun fd => protoDir sr fd = k) = [] then none
         else some (fds.filter (fun fd => protoDir sr fd = k))) := by
  induction fds generalizing m with
  | nil =>
    cases hm : m.lookup k <;> simp [hm]
  | cons fd rest ih =>
    rw [List.foldl_cons, ih]
    rw [lookup_insertAppend]
    by_cases hk : protoDir sr fd = k
    · rw [if_pos hk.symm]
      have hf : (fd :: rest).filter (fun fd2 => protoDir sr fd2 = k)
          = fd :: rest.filter (fun fd2 => protoDir sr fd2 = k) := by
        simp [List.filter, hk]
      rw [hf]
      cases hm : m.lookup k with
      | some l => simp
      | none => simp
    · rw [if_neg (fun hh => hk hh.symm)]
      have hf : (fd :: rest).filter (fun fd2 => protoDir sr fd2 = k)
          = rest.filter (fun fd2 => protoDir sr fd2 = k) := by
        simp [List.filter, hk]
      rw [hf]

theorem foldl_insertAppend_const_key (fds : List FileDescriptor) (k : Str)
    (l : List FileDescriptor) :
    List.foldl (fun m fd => insertAppend m k fd) [(k, l)] fds = [(k, l ++ fds)] := by
  induction fds generalizing l with
  | nil => simp
  | cons fd rest ih =>
    rw [List.foldl_cons]
    have h1 : insertAppend [(k, l)] k fd = [(k, l ++ [fd])] := by
      simp [insertAppend]
    rw [h1, ih]
    simp

/-- C9: grouping behaviour.  In single-output mode every descriptor's key
is the sentinel "./", so the whole input lands in one group under the
sentinel (and an empty input produces an empty map).  In per-source-
directory mode, looking up any key in the resulting map returns exactly
the descriptors whose directory key (directory part of the declared name,
with empty falling back to the sentinel) equals that key, in input order;
in particular "a/b.proto" and "a/c.proto" share the key "a/" and
"d.proto" falls back to the sentinel. -/
theorem groupProtosByDirectory_spec (fds : List FileDescriptor) :
    groupProtosByDirectory fds false
        = (if fds = [] then [] else [("./".toList, fds)]) ∧
    (∀ k : Str, (groupProtosByDirectory fds true).lookup k =
        (if fds.filter (fun fd => protoDir true fd = k) = [] then none
         else some (fds.filter (fun fd => protoDir true fd = k)))) ∧
    protoDir true ⟨"a/b.proto".toList⟩ = "a/".toList ∧
    protoDir true ⟨"a/c.proto".toList⟩ = "a/".toList ∧
    protoDir true ⟨"d.proto".toList⟩ = "./".toList := by
  refine ⟨?_, ?_, by decide, by decide, by decide⟩
  · cases fds with
    | nil => rfl
    | cons fd rest =>
      rw [if_neg (by simp)]
      show List.foldl (fun m fd2 => insertAppend m (protoDir false fd2) fd2) [] (fd :: rest)
          = [("./".toList, fd :: rest)]
      have hconst : (fun (m : List (Str × List FileDescriptor)) (fd2 : FileDescriptor) =>
          insertAppend m (protoDir false fd2) fd2)
          = fun m fd2 => insertAppend m "./".toList fd2 := rfl
      rw [hconst, List.foldl_cons]
      have h0 : insertAppend [] "./".toList fd = [("./".toList, [fd])] := rfl
      rw [h0, foldl_insertAppend_const_key]
      simp
  · intro k
    rw [groupProtosByDirectory, lookup_foldl_insertAppend]
    simp [List.lookup]

/-- C6: for a well-formed main spec of 2 or 3 comma-separated fields (a
third field, when present, being "source_relative" or "default"),
ParseOptions succeeds; the output file name is the basename of the second
field (directory components discarded); the first field is kept as the
template-file path, and is reinterpreted as a built-in renderer selection
(clearing the template file) exactly when it is recognized as a renderer
name; when unrecognized the template path wins and the renderer kind is
left at its cleared default (the HTML default of the initial options). -/
theorem parseOptions_mainspec_fields (compileOk : Str → Bool) (params f1 f2 : Str)
    (hc : goContains params ':' = false)
    (hsplit : goSplit params ',' = [f1, f2]
      ∨ goSplit params ',' = [f1, f2, "source_relative".toList]
      ∨ goSplit params ',' = [f1, f2, "default".toList]) :
    ∃ opts : PluginOptions, ParseOptions compileOk params = Except.ok opts ∧
      opts.OutputFile = goPathBase f2 ∧
      ((∃ t, NewRenderType f1 = some t ∧ opts.type = t ∧ opts.TemplateFile = []) ∨
        (NewRenderType f1 = none ∧ opts.TemplateFile = f1 ∧ opts.type = RenderType.html)) := by
  have hne : ¬ params = [] := by
    intro he
    subst he
    simp [goSplit] at hsplit
  have hcomma : goContains params ',' = true := by
    by_contra hcc
    rw [Bool.not_eq_true] at hcc
    rw [goSplit_not_contains params ',' hcc] at hsplit
    rcases hsplit with h | h | h <;> simp at h
  rcases hsplit with hs | hs | hs <;>
  · rw [ParseOptions, hc]
    simp only [Bool.false_eq_true, if_false]
    rw [parseMainSpec, if_neg hne, if_neg (by simp [hcomma] : ¬ goContains params ',' = false)]
    simp only [hs, List.length_cons, List.length_nil, List.getD_cons_zero, List.getD_cons_succ,
      List.getD_nil]
    rw [if_neg (by omega)]
    rw [if_neg (by simp)]
    cases hrt : NewRenderType f1 with
    | some t =>
      exact ⟨_, rfl, rfl, Or.inl ⟨t, rfl, rfl, rfl⟩⟩
    | none =>
      exact ⟨_, rfl, rfl, Or.inr ⟨rfl, rfl, rfl⟩⟩

/-- Witness for C6 at the concrete parameter "tmpl.tmpl,dir/out.html",
whose first field is not a recognized renderer name and whose second
field has a directory component. -/
theorem parseOptions_mainspec_fields_witness :
    ∃ opts : PluginOptions,
      ParseOptions alwaysCompiles "tmpl.tmpl,dir/out.html".toList = Except.ok opts ∧
      opts.OutputFile = goPathBase "dir/out.html".toList ∧
      ((∃ t, NewRenderType "tmpl.tmpl".toList = some t ∧ opts.type = t ∧ opts.TemplateFile = []) ∨
        (NewRenderType "tmpl.tmpl".toList = none ∧ opts.TemplateFile = "tmpl.tmpl".toList ∧
          opts.type = RenderType.html)) :=
  parseOptions_mainspec_fields alwaysCompiles "tmpl.tmpl,dir/out.html".toList
    "tmpl.tmpl".toList "dir/out.html".toList (by decide) (Or.inl (by decide))

/-- C7: for a non-empty main spec (a parameter with no colon), the parse
fails with the malformed-parameter error exactly when the comma-split
shape is outside the documented forms: field count other than 2 or 3 (in
particular no comma at all), or a third field other than exactly
"source_relative" or "default"; on the accepted shapes it succeeds and
the source-relative flag is set iff the third field is "source_relative"
(absent third field or "default" giving single-output grouping). -/
theorem parseOptions_mainspec_validation (compileOk : Str → Bool) (params : Str)
    (parts : List Str) (hc : goContains params ':' = false) (hne : ¬ params = [])
    (hp : goSplit params ',' = parts) :
    ((parts.length = 2 ∨ (parts.length = 3 ∧
        (parts.getD 2 [] = "source_relative".toList ∨ parts.getD 2 [] = "default".toList))) →
      ∃ opts, ParseOptions compileOk params = Except.ok opts ∧
        opts.SourceRelative = decide (parts.getD 2 [] = "source_relative".toList)) ∧
    (¬ (parts.length = 2 ∨ (parts.length = 3 ∧
        (parts.getD 2 [] = "source_relative".toList ∨ parts.getD 2 [] = "default".toList))) →
      ParseOptions compileOk params = Except.error (ParseError.invalidParameter params)) := by
  have hP : ParseOptions compileOk params = parseMainSpec defaultOptions params := by
    rw [ParseOptions, hc]
    simp only [Bool.false_eq_true, if_false]
  by_cases hcomma : goContains params ',' = true
  · have hlen : 2 ≤ parts.length := by
      rw [← hp]
      exact goContains_of_split_length params ',' hcomma
    have hbody : parseMainSpec defaultOptions params =
        (if parts.length < 2 ∨ 3 < parts.length then
          Except.error (ParseError.invalidParameter params)
        else if 2 < parts.length ∧ ¬ parts.getD 2 [] = "source_relative".toList
                ∧ ¬ parts.getD 2 [] = "default".toList then
          Except.error (ParseError.invalidParameter params)
        else
          match NewRenderType (parts.getD 0 []) with
          | some t =>
            Except.ok
              { defaultOptions with
                  type := t
                  TemplateFile := []
                  OutputFile := goPathBase (parts.getD 1 [])
                  SourceRelative := decide (2 < parts.length)
                    && decide (parts.getD 2 [] = "source_relative".toList) }
          | none =>
            Except.ok
              { defaultOptions with
                  TemplateFile := parts.getD 0 []
                  OutputFile := goPathBase (parts.getD 1 [])
                  SourceRelative := decide (2 < parts.length)
                    && decide (parts.getD 2 [] = "source_relative".toList) }) := by
      rw [parseMainSpec, if_neg hne, if_neg (by simp [hcomma]), hp]
    rw [hP, hbody]
    by_cases hlen3 : 3 < parts.length
    · rw [if_pos (Or.inr hlen3)]
      constructor
      · intro hshape
        rcases hshape with h2 | ⟨h3, _⟩ <;> omega
      · intro _
        rfl
    · rw [if_neg (by omega)]
      by_cases hlen2 : parts.length = 2
      · have hg2 : parts.getD 2 [] = [] := by
          apply List.getD_eq_default
          omega
        rw [if_neg (by rw [hlen2]; omega), hg2]
        constructor
        · intro _
          cases hn : NewRenderType (parts.getD 0 []) <;> simp [hn, hlen2]
        · intro hshape
          exact absurd (Or.inl hlen2) hshape
      · have hlen3e : parts.length = 3 := by omega
        by_cases hmode : parts.getD 2 [] = "source_relative".toList
            ∨ parts.getD 2 [] = "default".toList
        · rw [if_neg (by
            intro hcontra
            rcases hmode with hm | hm
            · exact hcontra.2.1 hm
            · exact hcontra.2.2 hm)]
          constructor
          · intro _
            cases hn : NewRenderType (parts.getD 0 []) <;>
              simp [hn, hlen3e]
          · intro hshape
            exact absurd (Or.inr ⟨hlen3e, hmode⟩) hshape
        · rw [if_pos ⟨by omega, fun hm => hmode (Or.inl hm), fun hm => hmode (Or.inr hm)⟩]
          constructor
          · intro hshape
            rcases hshape with h2 | ⟨_, hm⟩
            · omega
            · exact absurd hm hmode
          · intro _
            rfl
  · rw [Bool.not_eq_true] at hcomma
    have hparts : parts = [params] := by rw [← hp, goSplit_not_contains params ',' hcomma]
    subst hparts
    have hfail : parseMainSpec defaultOptions params
        = Except.error (ParseError.invalidParameter params) := by
      rw [parseMainSpec, if_neg hne, if_pos hcomma]
    constructor
    · intro hshape
      exfalso
      rcases hshape with h2 | ⟨h3, _⟩
      · simp at h2
      · simp at h3
    · intro _
      rw [hP, hfail]

/-- Witness for C7 at the concrete parameter "a,b,weird", whose third
field is neither "source_relative" nor "default". -/
theorem parseOptions_mainspec_validation_witness :
    ParseOptions alwaysCompiles "a,b,weird".toList
      = Except.error (ParseError.invalidParameter "a,b,weird".toList) :=
  (parseOptions_mainspec_validation alwaysCompiles "a,b,weird".toList
    ["a".toList, "b".toList, "weird".toList] (by decide) (by decide) (by decide)).2 (by decide)

/-- Any error produced by the pattern-compilation loop is the
malformed-pattern error naming one of the supplied patterns, and that
pattern indeed fails to compile. -/
theorem compilePatterns_error_shape (compileOk : Str → Bool) (l : List Str) (e : ParseError)
    (h : compilePatterns compileOk l = Except.error e) :
    ∃ q, e = ParseError.regexError q ∧ compileOk q = false ∧ q ∈ l := by
  induction l with
  | nil => simp [compilePatterns] at h
  | cons p rest ih =>
    by_cases hb : compileOk p = true
    · rw [compilePatterns, if_pos hb] at h
      cases hr : compilePatterns compileOk rest with
      | error e2 =>
        rw [hr] at h
        have he : e2 = e := by simpa using h
        obtain ⟨q, hq1, hq2, hq3⟩ := ih (by rw [hr, he])
        exact ⟨q, hq1, hq2, List.mem_cons_of_mem p hq3⟩
      | ok l2 => rw [hr] at h; simp at h
    · rw [compilePatterns, if_neg hb] at h
      rw [Except.error.injEq] at h
      refine ⟨p, h.symm, ?_, List.mem_cons_self p rest⟩
      simpa using hb

/-- C3 (amended): when the true separator colon is followed by a further
colon, only the segment between the separator and that next colon is
treated as the comma-separated exclusion-pattern list — the text after
the further colon is silently discarded, so the parse equals the parse of
the parameter without it.  Each pattern in that segment is compiled
independently; a compile failure is surfaced as the malformed-pattern
error naming the offending pattern, and it is surfaced before any
main-spec validation error (the main spec here is arbitrary). -/
theorem parseOptions_exclusion_segment (compileOk : Str → Bool) (main p rest : Str)
    (hm : goContains main ':' = false) (hp : goContains p ':' = false)
    (hw : winPathHeuristic main p = false) :
    ParseOptions compileOk (main ++ ':' :: (p ++ ':' :: rest))
        = ParseOptions compileOk (main ++ ':' :: p) ∧
    (∀ e, ¬ p = [] → compilePatterns compileOk (goSplit p ',') = Except.error e →
      (ParseOptions compileOk (main ++ ':' :: (p ++ ':' :: rest)) = Except.error e ∧
        ∃ q, e = ParseError.regexError q ∧ compileOk q = false ∧ q ∈ goSplit p ',')) := by
  have hsplit1 : goSplit (main ++ ':' :: (p ++ ':' :: rest)) ':'
      = main :: p :: goSplit rest ':' := by
    rw [goSplit_append_cons main _ ':' hm, goSplit_append_cons p rest ':' hp]
  have hsplit2 : goSplit (main ++ ':' :: p) ':' = [main, p] := by
    rw [goSplit_append_cons main p ':' hm, goSplit_not_contains p ':' hp]
  have hsc1 : splitColon (main ++ ':' :: (p ++ ':' :: rest)) = (main, p) := by
    simp [splitColon, hsplit1, hw]
  have hsc2 : splitColon (main ++ ':' :: p) = (main, p) := by
    simp [splitColon, hsplit2, hw]
  have hc1 : goContains (main ++ ':' :: (p ++ ':' :: rest)) ':' = true :=
    goContains_append_cons main _ ':'
  have hc2 : goContains (main ++ ':' :: p) ':' = true := goContains_append_cons main p ':'
  have hmain : ∀ s : Str, goContains s ':' = true → splitColon s = (main, p) →
      ParseOptions compileOk s
        = (match (if p = [] then Except.ok []
              else compilePatterns compileOk (goSplit p ',')) with
          | Except.error e => Except.error e
          | Except.ok pats =>
            parseMainSpec { defaultOptions with ExcludePatterns := pats } main) := by
    intro s hcs hscs
    rw [ParseOptions, hcs]
    simp only [if_true, hscs]
  have h1 := hmain _ hc1 hsc1
  have h2 := hmain _ hc2 hsc2
  refine ⟨by rw [h1, h2], ?_⟩
  intro e hne hcomp
  refine ⟨?_, compilePatterns_error_shape compileOk (goSplit p ',') e hcomp⟩
  rw [h1, if_neg hne, hcomp]

/-- Counterexample to C3 as stated: in "a,b:p1:p2" the true separator is
the first colon and the remainder of the string after it is "p1:p2",
which as a comma-separated list would be the single pattern "p1:p2"; the
code instead keeps only "p1" and silently discards ":p2". -/
theorem parseOptions_drops_text_after_second_colon :
    (ParseOptions alwaysCompiles "a,b:p1:p2".toList).map PluginOptions.ExcludePatterns
        = Except.ok ["p1".toList] ∧
    goSplit "p1:p2".toList ',' = ["p1:p2".toList] ∧
    ¬ (["p1".toList] : List Str) = ["p1:p2".toList] := by decide

/-- Witness for the amended C3 at the parameter "nocomma:x,(:junk" with a
compiler that rejects "(": the malformed-pattern error for "(" surfaces
even though the main spec "nocomma" is itself invalid. -/
theorem parseOptions_exclusion_segment_witness :
    ParseOptions rejectOpenParen ("nocomma".toList ++ ':' :: ("x,(".toList ++ ':' :: "junk".toList))
        = ParseOptions rejectOpenParen ("nocomma".toList ++ ':' :: "x,(".toList) ∧
    (ParseOptions rejectOpenParen
          ("nocomma".toList ++ ':' :: ("x,(".toList ++ ':' :: "junk".toList))
        = Except.error (ParseError.regexError "(".toList) ∧
      ∃ q, ParseError.regexError "(".toList = ParseError.regexError q ∧
        rejectOpenParen q = false ∧ q ∈ goSplit "x,(".toList ',') :=
  ⟨(parseOptions_exclusion_segment rejectOpenParen "nocomma".toList "x,(".toList "junk".toList
      (by decide) (by decide) (by decide)).1,
    (parseOptions_exclusion_segment rejectOpenParen "nocomma".toList "x,(".toList "junk".toList
      (by decide) (by decide) (by decide)).2 (ParseError.regexError "(".toList)
      (by decide) (by decide)⟩

/-- C2: evaluation of the code at the failing input "_:\x.tmpl,o.html:pat".
The underscore is not a letter, so under the claimed rule the colon after
it would be the true separator and the main spec "_" (no comma) would be
a malformed parameter; the code's character class [a-zA-z] nevertheless
accepts the underscore, absorbs the colon into a supposed Windows path
and parses successfully with template file "_:\x.tmpl".  The claim's
concrete example "C:\tmpl.tmpl,out.html:ignore\.proto$" does behave as
claimed. -/
theorem winPathHeuristic_accepts_non_letter :
    ParseOptions alwaysCompiles "_:\\x.tmpl,o.html:pat".toList
        = Except.ok
          { type := RenderType.html
            TemplateFile := "_:\\x.tmpl".toList
            OutputFile := "o.html".toList
            ExcludePatterns := ["pat".toList]
            SourceRelative := false } ∧
    Char.isAlpha '_' = false ∧
    winPathHeuristic "_".toList "\\x.tmpl,o.html".toList = true ∧
    ParseOptions alwaysCompiles "C:\\tmpl.tmpl,out.html:ignore\\.proto$".toList
        = Except.ok
          { type := RenderType.html
            TemplateFile := "C:\\tmpl.tmpl".toList
            OutputFile := "out.html".toList
            ExcludePatterns := ["ignore\\.proto$".toList]
            SourceRelative := false } := by decide

/-- C1: evaluation at a failing input.  For the request with parameter
"html,o.html,source_relative" and descriptors a/x.proto and b/y.proto,
both ["a/", "b/"] and ["b/", "a/"] are permutations of the group keys, so
both are possible iteration orders of the Go map ranged over at
plugin.go line 55; the two runs produce different responses (the two
response entries swap places), so two runs on identical input need not be
identically ordered. -/
theorem generate_depends_on_map_iteration_order :
    (["a/".toList, "b/".toList] : List Str).Perm
        (groupKeysOf alwaysCompiles neverMatches
          ⟨"html,o.html,source_relative".toList,
            [⟨"a/x.proto".toList⟩, ⟨"b/y.proto".toList⟩]⟩) ∧
    (["b/".toList, "a/".toList] : List Str).Perm
        (groupKeysOf alwaysCompiles neverMatches
          ⟨"html,o.html,source_relative".toList,
            [⟨"a/x.proto".toList⟩, ⟨"b/y.proto".toList⟩]⟩) ∧
    ¬ Generate alwaysCompiles neverMatches noRead constRender
          ["a/".toList, "b/".toList]
          ⟨"html,o.html,source_relative".toList,
            [⟨"a/x.proto".toList⟩, ⟨"b/y.proto".toList⟩]⟩
        = Generate alwaysCompiles neverMatches noRead constRender
          ["b/".toList, "a/".toList]
          ⟨"html,o.html,source_relative".toList,
            [⟨"a/x.proto".toList⟩, ⟨"b/y.proto".toList⟩]⟩ := by decide

/-- A render failure at group key d aborts the assembly loop with exactly
the renderer's error, whatever work preceded it. -/
theorem assembleFiles_error (render : RenderType → List FileDescriptor → Str → Except Str Str)
    (ty : RenderType) (custom outputFile : Str) (grp : List (Str × List FileDescriptor))
    (order1 order2 : List Str) (d : Str) (e : Str)
    (hok : ∀ d2 ∈ order1, ∃ out, render ty ((grp.lookup d2).getD []) custom = Except.ok out)
    (hfail : render ty ((grp.lookup d).getD []) custom = Except.error e) :
    assembleFiles render ty custom outputFile grp (order1 ++ d :: order2) = Except.error e := by
  induction order1 with
  | nil =>
    simp only [List.nil_append, assembleFiles, hfail]
  | cons d1 restOrd ih =>
    obtain ⟨out, hout⟩ := hok d1 (List.mem_cons_self d1 restOrd)
    have ih2 := ih (fun d2 hd2 => hok d2 (List.mem_cons_of_mem d1 hd2))
    simp only [List.cons_append, assembleFiles, hout, List.append_eq, ih2]

/-- C4 (amended): if the render call fails for some enumerated group (all
groups enumerated before it rendering successfully), Generate aborts the
whole assembly and returns the renderer's underlying error unchanged —
no partial response is produced.  The returned error is exactly the
renderer's own error value; it does not additionally carry the offending
group key. -/
theorem generate_render_failure_aborts (compileOk : Str → Bool) (rmatch : Str → Str → Bool)
    (readFile : Str → Except Str Str)
    (render : RenderType → List FileDescriptor → Str → Except Str Str)
    (req : CodeGeneratorRequest) (opts : PluginOptions)
    (order1 order2 : List Str) (d : Str) (e : Str)
    (hparse : ParseOptions compileOk req.parameter = Except.ok opts)
    (htmpl : opts.TemplateFile = [])
    (hok : ∀ d2 ∈ order1, ∃ out,
      render opts.type
        (((groupProtosByDirectory (excludeUnwantedProtos rmatch req.fds opts.ExcludePatterns)
            opts.SourceRelative).lookup d2).getD []) [] = Except.ok out)
    (hfail : render opts.type
        (((groupProtosByDirectory (excludeUnwantedProtos rmatch req.fds opts.ExcludePatterns)
            opts.SourceRelative).lookup d).getD []) [] = Except.error e) :
    Generate compileOk rmatch readFile render (order1 ++ d :: order2) req
      = Except.error (GenError.render e) := by
  have hasm := assembleFiles_error render opts.type [] opts.OutputFile
    (groupProtosByDirectory (excludeUnwantedProtos rmatch req.fds opts.ExcludePatterns)
      opts.SourceRelative) order1 order2 d e hok hfail
  simp only [Generate, hparse, htmpl, ite_true, hasm]

/-- Sample renderer that fails exactly on the group containing a
descriptor whose name starts with the letter b. -/
def pickyRender : RenderType → List FileDescriptor → Str → Except Str Str :=
  fun _ fds _ =>
    if fds.any (fun fd => goStartsWith fd.name 'b') then Except.error "boom".toList
    else Except.ok "out".toList

/-- Witness for the amended C4: with groups a/ and b/ enumerated in that
order and a renderer failing on b/, Generate returns exactly the
renderer's error. -/
theorem generate_render_failure_aborts_witness :
    Generate alwaysCompiles neverMatches noRead pickyRender
        (["a/".toList] ++ "b/".toList :: [])
        ⟨"html,o.html,source_relative".toList,
          [⟨"a/x.proto".toList⟩, ⟨"b/y.proto".toList⟩]⟩
      = Except.error (GenError.render "boom".toList) :=
  generate_render_failure_aborts alwaysCompiles neverMatches noRead pickyRender
    ⟨"html,o.html,source_relative".toList, [⟨"a/x.proto".toList⟩, ⟨"b/y.proto".toList⟩]⟩
    { type := RenderType.html
      TemplateFile := []
      OutputFile := "o.html".toList
      ExcludePatterns := []
      SourceRelative := true }
    ["a/".toList] [] "b/".toList "boom".toList
    (by decide) rfl
    (by
      intro d2 hd2
      rw [List.mem_singleton] at hd2
      subst hd2
      exact ⟨"out".toList, by decide⟩)
    (by decide)

/-- Counterexample to C4 as stated: two runs whose failing groups have
the different keys a/ and b/ return the identical error value, so the
error cannot identify the offending group key; the error value is the
renderer's underlying cause alone (and in both runs no partial response
is produced — the result is an error, not a response). -/
theorem generate_error_lacks_group_key :
    Generate alwaysCompiles neverMatches noRead failRender ["a/".toList]
        ⟨"html,o.html,source_relative".toList, [⟨"a/x.proto".toList⟩]⟩
      = Except.error (GenError.render "boom".toList) ∧
    Generate alwaysCompiles neverMatches noRead failRender ["b/".toList]
        ⟨"html,o.html,source_relative".toList, [⟨"b/x.proto".toList⟩]⟩
      = Except.error (GenError.render "boom".toList) := by decide
